import Mathlib

/-!
Verification of the game session manager of chess-support-mcp
(src/chess_support_mcp/server.py).

The repository delegates all chess rules to an external collaborator
(the python-chess library); following the specification, that collaborator
is modelled here as an abstract capability record `Engine` over an opaque
position type `P` and move type `M`.  The session manager itself
(`GameState` and the tool handlers) is translated function by function
from server.py.  Python dictionaries whose key set varies are modelled as
records of `Option` fields: a key that is absent from the dictionary is
the value `none`.  Mutation of the single global session is modelled by
explicit state passing: every operation that may touch the session
returns the successor state together with its response.
-/

namespace ChessSupport

/-- Capability interface of the external rules engine (spec section 6).
`P` is the opaque position type, `M` the parsed-move type.  `from_uci`
models chess.Move.from_uci, returning either a parsed move or the text of
the raised exception; `is_legal_move p m` models membership of `m` in the
legal-move set of `p`; `push_pos` models chess.Board.push restricted to
the position component (the move stack is modelled explicitly in `Board`
below); the remaining fields model the corresponding chess.Board
accessors used by server.py. -/
structure Engine (P M : Type) where
  initial : P
  from_uci : String → Except String M
  is_legal_move : P → M → Bool
  san : P → M → String
  push_pos : P → M → P
  fen : P → String
  turn : P → Bool
  fullmove_number : P → Nat
  halfmove_clock : P → Nat
  is_check : P → Bool
  is_game_over : P → Bool
  game_result : P → String
  piece_map : P → List (String × String)
  uci : M → String

/-- Model of chess.Board as used by server.py: the opaque position plus
the move stack (chess.Board.push appends to the stack, chess.Board.reset
restores the initial position and clears the stack). -/
structure Board (P M : Type) where
  pos : P
  move_stack : List M
deriving DecidableEq

/-- Push a move: mutate the position through the engine and append the
move to the stack (chess.Board.push). -/
def Board.push {P M : Type} (e : Engine P M) (b : Board P M) (m : M) : Board P M :=
  { pos := e.push_pos b.pos m, move_stack := b.move_stack ++ [m] }

/-- chess.Board.reset: the standard starting position with an empty
move stack. -/
def Board.resetB {P M : Type} (e : Engine P M) (_b : Board P M) : Board P M :=
  { pos := e.initial, move_stack := [] }

/-- GameState (server.py line 10): the single session, holding the board
and the cached SAN history. -/
structure GameState (P M : Type) where
  board : Board P M
  san_history : List String
deriving DecidableEq

/-- GameState.new (server.py line 17). -/
def GameState.new {P M : Type} (e : Engine P M) : GameState P M :=
  { board := { pos := e.initial, move_stack := [] }, san_history := [] }

/-- GameState.reset (server.py line 21): board.reset() and
san_history.clear(). -/
def GameState.reset {P M : Type} (e : Engine P M) (g : GameState P M) : GameState P M :=
  { board := Board.resetB e g.board, san_history := [] }

/-- Result dictionary of GameState.add_move_uci; absent keys are `none`. -/
structure MoveOutcome where
  accepted : Bool
  reason : Option String
  parse_error : Option String
  expected_turn : Option String
deriving DecidableEq

/-- GameState.add_move_uci (server.py lines 25-43), with the mutated
session threaded through the result. -/
def GameState.add_move_uci {P M : Type} (e : Engine P M) (g : GameState P M)
    (uci : String) : GameState P M × MoveOutcome :=
  match e.from_uci uci with
  | Except.error exc =>
      (g, { accepted := false, reason := some "parse_error",
            parse_error := some exc, expected_turn := none })
  | Except.ok move =>
      if e.is_legal_move g.board.pos move then
        let san := e.san g.board.pos move
        ({ board := Board.push e g.board move,
           san_history := g.san_history ++ [san] },
         { accepted := true, reason := none, parse_error := none,
           expected_turn := none })
      else
        (g, { accepted := false, reason := some "illegal", parse_error := none,
              expected_turn := some (if e.turn g.board.pos then "white" else "black") })

/-- Result dictionary of GameState.is_move_legal. -/
structure LegalOutcome where
  parse_error : Option String
  legal : Bool
deriving DecidableEq

/-- GameState.is_move_legal (server.py lines 45-50); the method performs
no assignment, so the threaded state is returned as received on every
path. -/
def GameState.is_move_legal {P M : Type} (e : Engine P M) (g : GameState P M)
    (uci : String) : GameState P M × LegalOutcome :=
  match e.from_uci uci with
  | Except.error exc => (g, { parse_error := some exc, legal := false })
  | Except.ok move => (g, { parse_error := none, legal := e.is_legal_move g.board.pos move })

/-- GameState.all_moves (server.py lines 52-53). -/
def GameState.all_moves {P M : Type} (e : Engine P M) (g : GameState P M) : List String :=
  g.board.move_stack.map e.uci

/-- One entry of a detailed move listing; `san` is `none` when the SAN
cache is shorter than the move stack. -/
structure MoveDetail where
  ply : Nat
  uci : String
  san : Option String
  side : String
deriving DecidableEq

/-- GameState.all_moves_detailed (server.py lines 55-64): enumerate the
move stack and build one record per move. -/
def GameState.all_moves_detailed {P M : Type} (e : Engine P M)
    (g : GameState P M) : List MoveDetail :=
  g.board.move_stack.enum.map (fun p =>
    { ply := p.1 + 1
      uci := e.uci p.2
      san := g.san_history[p.1]?
      side := if p.1 % 2 == 0 then "white" else "black" })

/-- GameState.last_n_moves (server.py lines 66-69): empty when n <= 0,
otherwise the Python slice move_stack[-n:], i.e. the suffix obtained by
dropping len - n elements (truncated subtraction). -/
def GameState.last_n_moves {P M : Type} (e : Engine P M) (g : GameState P M)
    (n : Int) : List String :=
  if n ≤ 0 then []
  else (g.board.move_stack.drop (g.board.move_stack.length - n.toNat)).map e.uci

/-- GameState.last_n_moves_detailed (server.py lines 71-84): empty when
n <= 0, otherwise iterate idx over range(start, len) with
start = max(0, len - n) and build the same record shape as
all_moves_detailed at each index. -/
def GameState.last_n_moves_detailed {P M : Type} (e : Engine P M)
    (g : GameState P M) (n : Int) : List MoveDetail :=
  if n ≤ 0 then []
  else
    let start := g.board.move_stack.length - n.toNat
    ((g.board.move_stack.drop start).enumFrom start).map (fun p =>
      { ply := p.1 + 1
        uci := e.uci p.2
        san := g.san_history[p.1]?
        side := if p.1 % 2 == 0 then "white" else "black" })

/-- Helper for pySplit: scan the character list, accumulating the
current token in reverse; whitespace ends the current token (if any),
and a trailing token is emitted at the end. -/
def pySplitAux : List Char → List Char → List String
  | [], acc => if acc.isEmpty then [] else [String.mk acc.reverse]
  | c :: cs, acc =>
    if c.isWhitespace then
      if acc.isEmpty then pySplitAux cs []
      else String.mk acc.reverse :: pySplitAux cs []
    else pySplitAux cs (c :: acc)

/-- Python str.split() with no argument: split on runs of whitespace and
discard empty tokens. -/
def pySplit (s : String) : List String :=
  pySplitAux s.data []

/-- Status dictionary returned by GameState.status. -/
structure Status where
  fen : String
  side_to_move : String
  fullmove_number : Nat
  halfmove_clock : Nat
  ply_count : Nat
  castling_rights : Option String
  en_passant_square : Option String
  last_move_uci : Option String
  last_move_san : Option String
  who_moved_last : Option String
  is_check : Bool
  is_game_over : Bool
  result : Option String
  pieces : List (String × String)
deriving DecidableEq

/-- GameState.status (server.py lines 95-115).  parts[2] if
len(parts) >= 3 else None is exactly the optional lookup parts[2]?. -/
def GameState.status {P M : Type} (e : Engine P M) (g : GameState P M) : Status :=
  let fen := e.fen g.board.pos
  let parts := pySplit fen
  { fen := fen
    side_to_move := if e.turn g.board.pos then "white" else "black"
    fullmove_number := e.fullmove_number g.board.pos
    halfmove_clock := e.halfmove_clock g.board.pos
    ply_count := g.board.move_stack.length
    castling_rights := parts[2]?
    en_passant_square := parts[3]?
    last_move_uci := g.board.move_stack.getLast?.map e.uci
    last_move_san := g.san_history.getLast?
    who_moved_last :=
      if g.board.move_stack.isEmpty then none
      else some (if (g.board.move_stack.length - 1) % 2 == 0 then "white" else "black")
    is_check := e.is_check g.board.pos
    is_game_over := e.is_game_over g.board.pos
    result := if e.is_game_over g.board.pos then some (e.game_result g.board.pos) else none
    pieces := e.piece_map g.board.pos }

/-- The helper _format_move_detail (server.py lines 231-237). -/
def format_move_detail {P M : Type} (e : Engine P M) (idx : Nat) (move : M)
    (san_history : List String) : MoveDetail :=
  { ply := idx + 1
    uci := e.uci move
    san := san_history[idx]?
    side := if idx % 2 == 0 then "white" else "black" }

/-- Response dictionary of the create_or_reset_game tool. -/
structure ResetResponse where
  ok : Bool
  status : Status
  moves : List String
  moves_detailed : List MoveDetail
deriving DecidableEq

/-- The create_or_reset_game tool (server.py lines 126-163): reset the
global session, then report ok together with status, moves and the
detailed listing built with _format_move_detail over the enumerated move
stack. -/
def create_or_reset_game {P M : Type} (e : Engine P M) (g : GameState P M) :
    GameState P M × ResetResponse :=
  let g1 := GameState.reset e g
  (g1,
   { ok := true
     status := GameState.status e g1
     moves := GameState.all_moves e g1
     moves_detailed := g1.board.move_stack.enum.map (fun p =>
       format_move_detail e p.1 p.2 g1.san_history) })

/-- The get_status tool (server.py lines 166-178). -/
def get_status {P M : Type} (e : Engine P M) (g : GameState P M) : Status :=
  GameState.status e g

/-- Response dictionary of the add_move tool; keys the handler never
writes for a given path are `none`.  The handler copies only the reason
and expected_turn keys out of the move outcome, so the response never
carries a parse_error key. -/
structure AddMoveResponse where
  accepted : Bool
  status : Status
  reason : Option String
  parse_error : Option String
  expected_turn : Option String
  moves : Option (List String)
  moves_detailed : Option (List MoveDetail)
deriving DecidableEq

/-- The add_move tool (server.py lines 181-209): call add_move_uci on
the session, attach the post-call status, and on rejection copy the
reason and expected_turn keys (and only those) from the outcome; on
acceptance attach moves and moves_detailed. -/
def add_move {P M : Type} (e : Engine P M) (g : GameState P M) (uci : String) :
    GameState P M × AddMoveResponse :=
  let r := GameState.add_move_uci e g uci
  let g1 := r.1
  let move_outcome := r.2
  if move_outcome.accepted then
    (g1,
     { accepted := true
       status := GameState.status e g1
       reason := none
       parse_error := none
       expected_turn := none
       moves := some (GameState.all_moves e g1)
       moves_detailed := some (GameState.all_moves_detailed e g1) })
  else
    (g1,
     { accepted := false
       status := GameState.status e g1
       reason := move_outcome.reason
       parse_error := none
       expected_turn := move_outcome.expected_turn
       moves := none
       moves_detailed := none })

/-- The is_legal tool (server.py lines 212-221). -/
def is_legal {P M : Type} (e : Engine P M) (g : GameState P M) (uci : String) :
    GameState P M × LegalOutcome :=
  GameState.is_move_legal e g uci

/-- The list_moves tool (server.py lines 224-228). -/
def list_moves {P M : Type} (e : Engine P M) (g : GameState P M) : List String :=
  GameState.all_moves e g

/-- The list_moves_detailed tool (server.py lines 240-250). -/
def list_moves_detailed {P M : Type} (e : Engine P M) (g : GameState P M) :
    List MoveDetail :=
  g.board.move_stack.enum.map (fun p => format_move_detail e p.1 p.2 g.san_history)

/-- The last_moves tool (server.py lines 253-261). -/
def last_moves {P M : Type} (e : Engine P M) (g : GameState P M) (n : Int) :
    List String :=
  GameState.last_n_moves e g n

/-- The last_moves_detailed tool (server.py lines 264-279): its own copy
of the suffix logic, inlined in the handler instead of delegating to
GameState.last_n_moves_detailed: empty when n <= 0, else map
_format_move_detail over idx in range(start, len) with
start = max(0, len - n). -/
def last_moves_detailed {P M : Type} (e : Engine P M) (g : GameState P M)
    (n : Int) : List MoveDetail :=
  if n ≤ 0 then []
  else
    let start := g.board.move_stack.length - n.toNat
    ((g.board.move_stack.drop start).enumFrom start).map (fun p =>
      format_move_detail e p.1 p.2 g.san_history)

/-- Counter of accepted moves since the last reset, threaded through the
reachability relation below. -/
inductive ReachableN {P M : Type} (e : Engine P M) : GameState P M → Nat → Prop
  | init : ReachableN e (GameState.new e) 0
  | reset {g : GameState P M} {k : Nat} :
      ReachableN e g k → ReachableN e (GameState.reset e g) 0
  | add_move {g : GameState P M} {k : Nat} (s : String) :
      ReachableN e g k →
      ReachableN e (GameState.add_move_uci e g s).1
        (if (GameState.add_move_uci e g s).2.accepted then k + 1 else k)
  | legal_query {g : GameState P M} {k : Nat} (s : String) :
      ReachableN e g k → ReachableN e (GameState.is_move_legal e g s).1 k

/-- Concrete rules engine used to instantiate the generic theorems on
closed inputs.  Positions are counted plies (0 is the initial position),
moves are their four-character descriptor strings; a descriptor parses
when it has exactly four characters, and only the move e2e4 is legal. -/
def demoEngine : Engine Nat String :=
  { initial := 0
    from_uci := fun s =>
      if s.length = 4 then Except.ok s else Except.error ("invalid uci: " ++ s)
    is_legal_move := fun _ m => m == "e2e4"
    san := fun p m => m ++ "@" ++ toString p
    push_pos := fun p _ => p + 1
    fen := fun p => "8/8 w KQkq - 0 " ++ toString p
    turn := fun p => p % 2 == 0
    fullmove_number := fun p => p / 2 + 1
    halfmove_clock := fun _ => 0
    is_check := fun _ => false
    is_game_over := fun _ => false
    game_result := fun _ => "*"
    piece_map := fun _ => [("a2", "P"), ("e1", "K")]
    uci := fun m => m }

/-- Variant of the concrete engine whose position serialization has a
single whitespace-delimited field, exercising the short-FEN tolerance of
GameState.status. -/
def demoEngineShort : Engine Nat String :=
  { demoEngine with fen := fun _ => "8/8" }

/-- The session reached from the initial session by accepting e2e4. -/
def demoAfterE4 : GameState Nat String :=
  (GameState.add_move_uci demoEngine (GameState.new demoEngine) "e2e4").1

/-- Any rejecting run of add_move_uci returns the session exactly as it
received it. -/
theorem add_move_uci_reject_eq {P M : Type} (e : Engine P M) (g : GameState P M)
    (s : String) (h : (GameState.add_move_uci e g s).2.accepted = false) :
    (GameState.add_move_uci e g s).1 = g := by
  cases hp : e.from_uci s with
  | error exc => simp [GameState.add_move_uci, hp]
  | ok m =>
    by_cases hl : e.is_legal_move g.board.pos m
    · exact absurd h (by simp [GameState.add_move_uci, hp, hl])
    · simp [GameState.add_move_uci, hp, hl]

/-- An accepting run of add_move_uci pushes the move and appends the SAN
text rendered against the position it received. -/
theorem add_move_uci_accept_eq {P M : Type} (e : Engine P M) (g : GameState P M)
    (s : String) (m : M) (hp : e.from_uci s = Except.ok m)
    (hl : e.is_legal_move g.board.pos m = true) :
    (GameState.add_move_uci e g s).1 =
      { board := Board.push e g.board m,
        san_history := g.san_history ++ [e.san g.board.pos m] } := by
  simp [GameState.add_move_uci, hp, hl]

/-- GameState.is_move_legal returns the session it received on every
path. -/
theorem is_move_legal_fst {P M : Type} (e : Engine P M) (g : GameState P M)
    (s : String) : (GameState.is_move_legal e g s).1 = g := by
  cases hp : e.from_uci s <;> simp [GameState.is_move_legal, hp]

/-- Enumerating a dropped suffix with the matching offset is the same as
dropping from the full enumeration. -/
theorem enumFrom_drop_eq {α : Type} :
    ∀ (k n : Nat) (l : List α),
      (l.drop k).enumFrom (n + k) = (l.enumFrom n).drop k
  | 0, _, _ => by simp
  | _ + 1, _, [] => by simp
  | k + 1, n, a :: l => by
    have h := enumFrom_drop_eq k (n + 1) l
    rw [List.drop_succ_cons, List.enumFrom_cons, List.drop_succ_cons,
      show n + (k + 1) = (n + 1) + k from by omega, h]

/-- C1.  For every descriptor string, if add_move_uci rejects it
(because parsing fails or the parsed move is not in the legal-move set of
the current position), then both the position (board) and the move
history are exactly the same after the call as before it. -/
theorem add_move_rejection_purity {P M : Type} (e : Engine P M)
    (g : GameState P M) (s : String)
    (h : (GameState.add_move_uci e g s).2.accepted = false) :
    (GameState.add_move_uci e g s).1.board = g.board ∧
    (GameState.add_move_uci e g s).1.san_history = g.san_history := by
  rw [add_move_uci_reject_eq e g s h]
  exact ⟨rfl, rfl⟩

/-- Witness for C1: the two-character descriptor xx fails to parse in the
concrete engine, and the session after the rejected attempt equals the
initial session. -/
theorem add_move_rejection_purity_witness :
    (GameState.add_move_uci demoEngine (GameState.new demoEngine) "xx").1.board =
      (GameState.new demoEngine).board ∧
    (GameState.add_move_uci demoEngine (GameState.new demoEngine) "xx").1.san_history =
      (GameState.new demoEngine).san_history :=
  add_move_rejection_purity demoEngine (GameState.new demoEngine) "xx" (by decide)

/-- C2, counterexample to the claim as stated.  On an unparseable
descriptor, the add_move tool response has reason parse_error but does
not carry the parse diagnostic at all: the handler copies only the
reason and expected_turn keys out of the move outcome, so the response
has no parse_error key (modelled as the field being none). -/
theorem add_move_tool_drops_diagnostic :
    (add_move demoEngine (GameState.new demoEngine) "zz").2.accepted = false ∧
    (add_move demoEngine (GameState.new demoEngine) "zz").2.reason = some "parse_error" ∧
    (add_move demoEngine (GameState.new demoEngine) "zz").2.parse_error = none := by
  decide

/-- C2, amended.  For every descriptor string that fails parsing, the
session-level operation add_move_uci returns a rejection outcome with
reason parse_error carrying the underlying parse diagnostic verbatim,
while the add_move tool reports reason parse_error but omits the
diagnostic text from its response. -/
theorem parse_error_diagnostic {P M : Type} (e : Engine P M)
    (g : GameState P M) (s : String) (exc : String)
    (hp : e.from_uci s = Except.error exc) :
    (GameState.add_move_uci e g s).2.accepted = false ∧
    (GameState.add_move_uci e g s).2.reason = some "parse_error" ∧
    (GameState.add_move_uci e g s).2.parse_error = some exc ∧
    (add_move e g s).2.reason = some "parse_error" ∧
    (add_move e g s).2.parse_error = none := by
  refine ⟨?_, ?_, ?_, ?_, ?_⟩ <;> simp [add_move, GameState.add_move_uci, hp]

/-- Witness for C2: the concrete engine rejects zz with a nonempty
diagnostic, and the session-level outcome carries exactly that text. -/
theorem parse_error_diagnostic_witness :
    (GameState.add_move_uci demoEngine (GameState.new demoEngine) "zz").2.parse_error =
      some "invalid uci: zz" ∧
    (add_move demoEngine (GameState.new demoEngine) "zz").2.parse_error = none := by
  have h := parse_error_diagnostic demoEngine (GameState.new demoEngine) "zz"
    "invalid uci: zz" rfl
  exact ⟨h.2.2.1, h.2.2.2.2⟩

/-- C8.  For every input descriptor string (well-formed or not) and every
session state, the is_legal tool and the underlying is_move_legal query
leave the session unchanged: the state after the call equals the state
before it. -/
theorem is_legal_no_mutation {P M : Type} (e : Engine P M) (g : GameState P M)
    (s : String) :
    (is_legal e g s).1 = g ∧ (GameState.is_move_legal e g s).1 = g :=
  ⟨is_move_legal_fst e g s, is_move_legal_fst e g s⟩

/-- C3.  After every sequence of operations (reset, add_move_uci whether
accepted or rejected, legality queries) starting from the initial
session, the length of the cached SAN history equals the number of moves
accepted since the last reset (the index carried by ReachableN), which
equals the move-stack length and the ply_count reported by status. -/
theorem history_length_invariant {P M : Type} (e : Engine P M)
    (g : GameState P M) (k : Nat) (h : ReachableN e g k) :
    g.san_history.length = k ∧ g.board.move_stack.length = k ∧
    (GameState.status e g).ply_count = k := by
  have key : g.san_history.length = k ∧ g.board.move_stack.length = k := by
    induction h with
    | init => exact ⟨rfl, rfl⟩
    | reset _ _ => exact ⟨rfl, rfl⟩
    | @add_move g1 k1 s hg ih =>
      rcases ih with ⟨ih1, ih2⟩
      cases hp : e.from_uci s with
      | error exc => simpa [GameState.add_move_uci, hp] using And.intro ih1 ih2
      | ok m =>
        by_cases hl : e.is_legal_move g1.board.pos m
        · simp [GameState.add_move_uci, hp, hl, Board.push, ih1, ih2]
        · simpa [GameState.add_move_uci, hp, hl] using And.intro ih1 ih2
    | legal_query s hg ih =>
      rw [is_move_legal_fst]
      exact ih
  exact ⟨key.1, key.2, key.2⟩

/-- Witness for C3: after accepting e2e4 from the initial session, the
SAN history has one entry and status reports ply_count 1. -/
theorem history_length_invariant_witness :
    demoAfterE4.san_history.length = 1 ∧
    demoAfterE4.board.move_stack.length = 1 ∧
    (GameState.status demoEngine demoAfterE4).ply_count = 1 := by
  have h0 : ReachableN demoEngine (GameState.new demoEngine) 0 :=
    ReachableN.init (e := demoEngine)
  have h1 := ReachableN.add_move "e2e4" h0
  have hacc : (GameState.add_move_uci demoEngine
      (GameState.new demoEngine) "e2e4").2.accepted = true := by decide
  simp only [hacc, if_true] at h1
  exact history_length_invariant demoEngine demoAfterE4 1 h1

/-- C4.  In every detailed move view, the record at 0-based index i has
side white exactly when i is even, and carries the 1-based ply i + 1. -/
theorem side_parity {P M : Type} (e : Engine P M) (g : GameState P M)
    (i : Nat) (h : i < (GameState.all_moves_detailed e g).length) :
    (((GameState.all_moves_detailed e g).get ⟨i, h⟩).side = "white" ↔ i % 2 = 0) ∧
    ((GameState.all_moves_detailed e g).get ⟨i, h⟩).ply = i + 1 := by
  have hi : i < g.board.move_stack.length := by
    simpa [GameState.all_moves_detailed] using h
  have hget : ((GameState.all_moves_detailed e g).get ⟨i, h⟩).side =
      (if i % 2 == 0 then "white" else "black") ∧
      ((GameState.all_moves_detailed e g).get ⟨i, h⟩).ply = i + 1 := by
    simp [GameState.all_moves_detailed, List.getElem_enum]
  refine ⟨?_, hget.2⟩
  rw [hget.1]
  by_cases hp : i % 2 = 0
  · simp [hp]
  · simp only [hp, beq_iff_eq, if_false, iff_false]
    · exact fun hc => absurd hc (by decide)

/-- Witness for C4: the first record after e2e4 is a white move at
ply 1. -/
theorem side_parity_witness :
    (((GameState.all_moves_detailed demoEngine demoAfterE4).get
        ⟨0, by decide⟩).side = "white" ↔ 0 % 2 = 0) ∧
    ((GameState.all_moves_detailed demoEngine demoAfterE4).get
        ⟨0, by decide⟩).ply = 0 + 1 :=
  side_parity demoEngine demoAfterE4 0 (by decide)

/-- For positive n the detailed suffix view is a drop of the full
detailed view. -/
theorem last_n_detailed_drop {P M : Type} (e : Engine P M) (g : GameState P M)
    (n : Int) (hn : 0 < n) :
    GameState.last_n_moves_detailed e g n =
      (GameState.all_moves_detailed e g).drop
        (g.board.move_stack.length - n.toNat) := by
  simp only [GameState.last_n_moves_detailed, GameState.all_moves_detailed]
  rw [if_neg (by omega)]
  rw [← List.map_drop]
  congr 1
  have h := enumFrom_drop_eq (g.board.move_stack.length - n.toNat) 0
    g.board.move_stack
  simpa [List.enum] using h

/-- C5.  For every integer n: last_n_moves and last_n_moves_detailed are
empty when n is not positive; for positive n they are the suffix of the
corresponding full view of length min n (length of history); and when n
is at least the history length they are exactly the full views. -/
theorem last_n_boundary {P M : Type} (e : Engine P M) (g : GameState P M)
    (n : Int) :
    (n ≤ 0 → GameState.last_n_moves e g n = [] ∧
      GameState.last_n_moves_detailed e g n = []) ∧
    (0 < n → GameState.last_n_moves e g n =
        (GameState.all_moves e g).drop
          ((GameState.all_moves e g).length - n.toNat) ∧
      (GameState.last_n_moves e g n).length =
        min n.toNat (GameState.all_moves e g).length ∧
      GameState.last_n_moves_detailed e g n =
        (GameState.all_moves_detailed e g).drop
          ((GameState.all_moves_detailed e g).length - n.toNat)) ∧
    ((g.board.move_stack.length : Int) ≤ n →
      GameState.last_n_moves e g n = GameState.all_moves e g ∧
      GameState.last_n_moves_detailed e g n = GameState.all_moves_detailed e g) := by
  have hlenm : (GameState.all_moves e g).length = g.board.move_stack.length := by
    simp [GameState.all_moves]
  have hlend : (GameState.all_moves_detailed e g).length =
      g.board.move_stack.length := by
    simp [GameState.all_moves_detailed]
  have hdropm : 0 < n → GameState.last_n_moves e g n =
      (GameState.all_moves e g).drop
        ((GameState.all_moves e g).length - n.toNat) := by
    intro hn
    simp only [GameState.last_n_moves, GameState.all_moves]
    rw [if_neg (by omega), List.map_drop, List.length_map]
  refine ⟨?_, ?_, ?_⟩
  · intro hn
    constructor
    · simp [GameState.last_n_moves, hn]
    · simp [GameState.last_n_moves_detailed, hn]
  · intro hn
    refine ⟨hdropm hn, ?_, ?_⟩
    · rw [hdropm hn, List.length_drop, hlenm]
      omega
    · rw [hlend]
      exact last_n_detailed_drop e g n hn
  · intro hn
    by_cases hpos : 0 < n
    · have hz : g.board.move_stack.length - n.toNat = 0 := by omega
      constructor
      · rw [hdropm hpos, hlenm, hz, List.drop_zero]
      · rw [last_n_detailed_drop e g n hpos, hz, List.drop_zero]
    · have hn0 : n ≤ 0 := by omega
      have hz : g.board.move_stack.length = 0 := by omega
      have hnil : g.board.move_stack = [] := List.length_eq_zero.mp hz
      constructor
      · simp [GameState.last_n_moves, GameState.all_moves, hn0, hnil]
      · simp [GameState.last_n_moves_detailed, GameState.all_moves_detailed,
          hn0, hnil]

/-- Witness for C5: with two moves on the stack, n = -1 yields the empty
list, n = 1 yields the one-element suffix, and n = 5 yields the full
views. -/
theorem last_n_boundary_witness :
    (GameState.last_n_moves demoEngine demoAfterE4 (-1) = [] ∧
      GameState.last_n_moves_detailed demoEngine demoAfterE4 (-1) = []) ∧
    (GameState.last_n_moves demoEngine demoAfterE4 1).length =
      min (Int.toNat 1) (GameState.all_moves demoEngine demoAfterE4).length ∧
    (GameState.last_n_moves demoEngine demoAfterE4 5 =
      GameState.all_moves demoEngine demoAfterE4 ∧
      GameState.last_n_moves_detailed demoEngine demoAfterE4 5 =
      GameState.all_moves_detailed demoEngine demoAfterE4) := by
  refine ⟨(last_n_boundary demoEngine demoAfterE4 (-1)).1 (by decide),
    ((last_n_boundary demoEngine demoAfterE4 1).2.1 (by decide)).2.1,
    (last_n_boundary demoEngine demoAfterE4 5).2.2 (by decide)⟩

/-- C6.  For every prior session state, reset yields exactly the freshly
created session: standard starting position, empty move stack, empty
history; the create_or_reset_game tool always reports ok with side to
move white and ply count 0. -/
theorem reset_reinitializes {P M : Type} (e : Engine P M) (g : GameState P M)
    (hw : e.turn e.initial = true) :
    GameState.reset e g = GameState.new e ∧
    (create_or_reset_game e g).2.ok = true ∧
    (create_or_reset_game e g).1.board.pos = e.initial ∧
    (create_or_reset_game e g).1.board.move_stack = [] ∧
    (create_or_reset_game e g).1.san_history = [] ∧
    (create_or_reset_game e g).2.status.side_to_move = "white" ∧
    (create_or_reset_game e g).2.status.ply_count = 0 ∧
    (create_or_reset_game e g).2.moves = [] ∧
    (create_or_reset_game e g).2.moves_detailed = [] := by
  refine ⟨rfl, rfl, rfl, rfl, rfl, ?_, rfl, rfl, rfl⟩
  simp [create_or_reset_game, GameState.status, GameState.reset,
    Board.resetB, hw]

/-- Witness for C6: resetting the session that already contains e2e4
restores the fresh session in the concrete engine. -/
theorem reset_reinitializes_witness :
    GameState.reset demoEngine demoAfterE4 = GameState.new demoEngine ∧
    (create_or_reset_game demoEngine demoAfterE4).2.status.side_to_move =
      "white" ∧
    (create_or_reset_game demoEngine demoAfterE4).2.status.ply_count = 0 := by
  have h := reset_reinitializes demoEngine demoAfterE4 rfl
  exact ⟨h.1, h.2.2.2.2.2.1, h.2.2.2.2.2.2.1⟩

/-- C7.  status takes castling rights from the third and the en-passant
value from the fourth whitespace-delimited field of the serialized
position (1-based counting, i.e. 0-based indices 2 and 3); when the
string has fewer fields the corresponding status entry is none and the
operation still succeeds. -/
theorem status_fen_fields {P M : Type} (e : Engine P M) (g : GameState P M) :
    (GameState.status e g).castling_rights =
      (pySplit (e.fen g.board.pos))[2]? ∧
    (GameState.status e g).en_passant_square =
      (pySplit (e.fen g.board.pos))[3]? ∧
    ((pySplit (e.fen g.board.pos)).length < 3 →
      (GameState.status e g).castling_rights = none) ∧
    ((pySplit (e.fen g.board.pos)).length < 4 →
      (GameState.status e g).en_passant_square = none) ∧
    (∀ h3 : 2 < (pySplit (e.fen g.board.pos)).length,
      (GameState.status e g).castling_rights =
        some ((pySplit (e.fen g.board.pos)).get ⟨2, h3⟩)) ∧
    (∀ h4 : 3 < (pySplit (e.fen g.board.pos)).length,
      (GameState.status e g).en_passant_square =
        some ((pySplit (e.fen g.board.pos)).get ⟨3, h4⟩)) := by
  refine ⟨rfl, rfl, ?_, ?_, ?_, ?_⟩
  · intro hlt
    show (pySplit (e.fen g.board.pos))[2]? = none
    exact List.getElem?_eq_none (by omega)
  · intro hlt
    show (pySplit (e.fen g.board.pos))[3]? = none
    exact List.getElem?_eq_none (by omega)
  · intro h3
    show (pySplit (e.fen g.board.pos))[2]? = _
    rw [List.getElem?_eq_getElem h3]
    rfl
  · intro h4
    show (pySplit (e.fen g.board.pos))[3]? = _
    rw [List.getElem?_eq_getElem h4]
    rfl

/-- Witness for C7: with the short single-field serialization both
fields report as absent, and with the full serialization of the concrete
engine they report the third and fourth fields. -/
theorem status_fen_fields_witness :
    ((GameState.status demoEngineShort
        (GameState.new demoEngineShort)).castling_rights = none ∧
      (GameState.status demoEngineShort
        (GameState.new demoEngineShort)).en_passant_square = none) ∧
    ((GameState.status demoEngine
        (GameState.new demoEngine)).castling_rights = some "KQkq" ∧
      (GameState.status demoEngine
        (GameState.new demoEngine)).en_passant_square = some "-") := by
  have hs := status_fen_fields demoEngineShort (GameState.new demoEngineShort)
  have hf := status_fen_fields demoEngine (GameState.new demoEngine)
  refine ⟨⟨hs.2.2.1 (by decide), hs.2.2.2.1 (by decide)⟩,
    (hf.2.2.2.2.1 (by decide)).trans (by decide),
    (hf.2.2.2.2.2 (by decide)).trans (by decide)⟩

/-- C9.  An accepted move stores the SAN text rendered against the
pre-move position, and under the session invariant the appended record
carries ply equal to the history length plus one; whenever the rendering
against the post-move position differs from the pre-move rendering, the
stored text differs from the post-move rendering. -/
theorem san_precomputed {P M : Type} (e : Engine P M) (g : GameState P M)
    (s : String) (m : M) (hp : e.from_uci s = Except.ok m)
    (hl : e.is_legal_move g.board.pos m = true)
    (hlen : g.san_history.length = g.board.move_stack.length) :
    (GameState.add_move_uci e g s).1.san_history =
      g.san_history ++ [e.san g.board.pos m] ∧
    (GameState.all_moves_detailed e (GameState.add_move_uci e g s).1).getLast? =
      some { ply := g.san_history.length + 1
             uci := e.uci m
             san := some (e.san g.board.pos m)
             side := if g.san_history.length % 2 == 0 then "white" else "black" } ∧
    (e.san (GameState.add_move_uci e g s).1.board.pos m ≠ e.san g.board.pos m →
      (GameState.add_move_uci e g s).1.san_history.getLast? ≠
        some (e.san (GameState.add_move_uci e g s).1.board.pos m)) := by
  have hstate := add_move_uci_accept_eq e g s m hp hl
  refine ⟨by rw [hstate], ?_, ?_⟩
  · rw [hstate]
    simp only [GameState.all_moves_detailed, Board.push]
    rw [List.enum_append]
    simp only [List.enumFrom_cons, List.enumFrom_nil, List.map_append,
      List.map_cons, List.map_nil]
    rw [List.getLast?_concat]
    rw [← hlen, List.getElem?_concat_length]
  · rw [hstate]
    intro hne
    simp only [List.getLast?_concat]
    intro hcontra
    injection hcontra with h12
    exact hne h12.symm

/-- Witness for C9: accepting e2e4 in the concrete engine stores the SAN
rendered at the pre-move position, and since the rendering changes after
the push, the stored text differs from the post-move rendering. -/
theorem san_precomputed_witness :
    (GameState.add_move_uci demoEngine
        (GameState.new demoEngine) "e2e4").1.san_history =
      (GameState.new demoEngine).san_history ++
        [demoEngine.san (GameState.new demoEngine).board.pos "e2e4"] ∧
    (GameState.add_move_uci demoEngine
        (GameState.new demoEngine) "e2e4").1.san_history.getLast? ≠
      some (demoEngine.san
        (GameState.add_move_uci demoEngine
          (GameState.new demoEngine) "e2e4").1.board.pos "e2e4") := by
  have h := san_precomputed demoEngine (GameState.new demoEngine) "e2e4" "e2e4"
    rfl rfl rfl
  exact ⟨h.1, h.2.2 (by decide)⟩

/-- C10.  For every integer n and every session state, the suffix
formatting inlined in the last_moves_detailed tool produces exactly the
same list of move records as GameState.last_n_moves_detailed. -/
theorem last_moves_detailed_tool_equiv {P M : Type} (e : Engine P M)
    (g : GameState P M) (n : Int) :
    last_moves_detailed e g n = GameState.last_n_moves_detailed e g n := by
  unfold last_moves_detailed GameState.last_n_moves_detailed format_move_detail
  rfl

end ChessSupport
